import Mathlib

/-!
Shallow embedding of the `aocutils` Go package (file `aocutils.go`) and
verification of its specification's claims about the container toolkit:
sequence splicing (`Cut`, `Delete`, `Insert`), the `Stack` type, the grid
bounds check `InBounds`, and the tree enumeration `TreeNode.GetNodes`.

Modelling conventions:
- A Go slice value is modelled by the `List` of its visible elements, with
  the convention that its capacity equals its length (a fresh, exactly-sized
  slice).  Under this convention `append` always reallocates, and a reslice
  `s[:k]` with `k > len(s)` panics.
- Go `int` indices are modelled by `Int`, so negative arguments are
  representable.
- A Go runtime panic from an out-of-range index or slice expression is
  modelled by `Except.error GoPanic.indexOutOfRange`; functions that can
  panic return `Except GoPanic _`.
- The zero value `*new(T)` of a generic Go type is modelled by `default`
  from an `Inhabited` instance.
- Go methods with value receivers receive a copy of the slice header: a
  reassignment of the receiver inside the method is invisible to the
  caller.  Stack methods therefore report both the method-local slice at
  the end of the body and the caller-visible slice after the call.
-/

namespace Aocutils

/-- Failure values.  `indexOutOfRange` models the Go runtime panic raised by
an out-of-range index or slice expression, the only failure the source can
produce.  `emptyCollection` models the spec's `EmptyCollection` error from
its error taxonomy (spec section 7); no function of the source ever produces
it, it exists so that claims naming that error can be stated. -/
inductive GoPanic where
  | indexOutOfRange : GoPanic
  | emptyCollection : GoPanic
  deriving DecidableEq, Repr

/-- Result of calling one of the slice functions `Cut`, `Delete`, `Insert`:
the returned slice (or the panic), together with the caller-visible elements
of the argument slice after the call (these functions mutate their argument
in place through the shared backing array). -/
structure SliceCall (T : Type) where
  ret : Except GoPanic (List T)
  arg : List T
  deriving Repr

/-- Effect of the Go builtin `copy(l[dst:], l[src:])` on the backing array of
`l`: the `min (len - dst) (len - src)` elements starting at `src` are copied
(with memmove semantics, reading the old values) to the positions starting
at `dst`; every other position keeps its old value. -/
def goCopyWithin (l : List T) (dst src : Nat) : List T :=
  l.take dst ++ (l.drop src).take (min (l.length - dst) (l.length - src))
    ++ l.drop (dst + min (l.length - dst) (l.length - src))

/-- Effect of the Go assignment `l[i] = v` on the backing array of `l`
(callers establish `i < l.length` before using it). -/
def goSet (l : List T) (i : Nat) (v : T) : List T :=
  l.take i ++ v :: l.drop (i + 1)

/-- Effect of the zeroing loop of `Cut`:
`for k := from; k < len(l); k++ { l[k] = *new(T) }`. -/
def goZeroFrom [Inhabited T] (l : List T) (k : Nat) : List T :=
  l.take k ++ List.replicate (l.length - k) default

/-- Embedding of `Cut[T any](slice []T, start, end int) []T`:
`copy(slice[start:], slice[end:])`, then the zeroing loop from index
`len(slice)-end+start`, then `return slice[:len(slice)-end+start]`.
The slice expressions `slice[start:]` and `slice[end:]` panic when their
index is negative or exceeds `len(slice)`; the final reslice panics when
`len(slice)-end+start` exceeds the capacity (= `len(slice)` under the
exact-capacity convention), i.e. when `start > end`.  The `arg` field
records the caller-visible elements of `slice` after the call. -/
def Cut [Inhabited T] (slice : List T) (start endIdx : Int) : SliceCall T :=
  let len := slice.length
  if 0 ≤ start ∧ start ≤ (len : Int) then
    if 0 ≤ endIdx ∧ endIdx ≤ (len : Int) then
      let copied := goCopyWithin slice start.toNat endIdx.toNat
      let zeroed := goZeroFrom copied ((len - endIdx.toNat) + start.toNat)
      if start ≤ endIdx then
        { ret := .ok (zeroed.take ((len - endIdx.toNat) + start.toNat)),
          arg := zeroed }
      else
        { ret := .error .indexOutOfRange, arg := zeroed }
    else
      { ret := .error .indexOutOfRange, arg := slice }
  else
    { ret := .error .indexOutOfRange, arg := slice }

/-- Embedding of `Delete[T any](slice []T, index int) []T`:
`copy(slice[index:], slice[index+1:])`, then `slice[len(slice)-1] = *new(T)`,
then `return slice[:len(slice)-1]`.  The slice expression `slice[index:]`
panics unless `0 ≤ index ≤ len(slice)`; `slice[index+1:]` then panics unless
`index+1 ≤ len(slice)`.  When both pass, `index < len(slice)`, so the
element write and the final reslice are in range. -/
def Delete [Inhabited T] (slice : List T) (index : Int) : SliceCall T :=
  let len := slice.length
  if 0 ≤ index ∧ index ≤ (len : Int) then
    if index + 1 ≤ (len : Int) then
      let copied := goCopyWithin slice index.toNat (index.toNat + 1)
      let zeroed := goSet copied (len - 1) default
      { ret := .ok (zeroed.take (len - 1)), arg := zeroed }
    else
      { ret := .error .indexOutOfRange, arg := slice }
  else
    { ret := .error .indexOutOfRange, arg := slice }

/-- Embedding of `Insert[T any](slice []T, element T, index int) []T`:
`slice = append(slice, *new(T))` (which, under the exact-capacity
convention, reallocates, so the caller's slice is never touched), then
`copy(slice[index+1:], slice[index:])` on the appended slice of length
`len+1` (panics unless `0 ≤ index+1 ≤ len+1`, then unless `0 ≤ index`),
then `slice[index] = element`, then `return slice`. -/
def Insert [Inhabited T] (slice : List T) (element : T) (index : Int) :
    SliceCall T :=
  let appended := slice ++ [default]
  let len1 := appended.length
  if 0 ≤ index + 1 ∧ index + 1 ≤ (len1 : Int) then
    if 0 ≤ index ∧ index ≤ (len1 : Int) then
      let copied := goCopyWithin appended (index.toNat + 1) index.toNat
      { ret := .ok (goSet copied index.toNat element), arg := slice }
    else
      { ret := .error .indexOutOfRange, arg := slice }
  else
    { ret := .error .indexOutOfRange, arg := slice }

/-- Embedding of `type Stack[T any] []T`. -/
def Stack (T : Type) : Type := List T

/-- Result of calling a Stack method: the method-local value of the receiver
`s` at the end of the body, the caller-visible stack after the call
(unchanged, because the receiver is passed by value: a Go method on
`Stack[T]`, not `*Stack[T]`, works on a copy of the slice header), and the
returned value or panic. -/
structure StackCall (T R : Type) where
  localFinal : List T
  caller : List T
  ret : Except GoPanic R
  deriving Repr

/-- Embedding of `func (s Stack[T]) Push(element T)`:
`s = append(s, element)` reassigns only the method-local copy of `s`. -/
def Stack.Push (s : Stack T) (element : T) : StackCall T Unit :=
  { localFinal := List.append s [element], caller := s, ret := .ok () }

/-- Embedding of `func (s Stack[T]) Pop() T`:
`element, s := s[len(s)-1], s[:len(s)-1]; return element`.  On an empty
stack `s[len(s)-1]` is `s[-1]`, a runtime index-out-of-range panic. -/
def Stack.Pop (s : Stack T) : StackCall T T :=
  match List.getLast? s with
  | none => { localFinal := s, caller := s, ret := .error .indexOutOfRange }
  | some element =>
      { localFinal := List.dropLast s, caller := s, ret := .ok element }

/-- Embedding of `func (s Stack[T]) Unshift(element T)`:
`s = append([]T{element}, s...)` builds a fresh slice and reassigns only the
method-local copy of `s`. -/
def Stack.Unshift (s : Stack T) (element : T) : StackCall T Unit :=
  { localFinal := element :: s, caller := s, ret := .ok () }

/-- Embedding of `func (s Stack[T]) Shift() T`:
`element, s := s[0], s[1:]; return element`.  On an empty stack `s[0]` is a
runtime index-out-of-range panic. -/
def Stack.Shift (s : Stack T) : StackCall T T :=
  match s with
  | [] => { localFinal := s, caller := s, ret := .error .indexOutOfRange }
  | element :: rest =>
      { localFinal := rest, caller := element :: rest, ret := .ok element }

/-- Embedding of `type Grid[T any] [][]T`. -/
def Grid (T : Type) : Type := List (List T)

/-- Embedding of `type Coordinate struct{ x, y int }`. -/
structure Coordinate where
  x : Int
  y : Int
  deriving DecidableEq, Repr

/-- Embedding of `func InBounds[T any](grid Grid[T], coord Coordinate) bool`:
`return coord.y > 0 && coord.x > 0 && coord.y < len(grid) && coord.x < len(grid[0])`.
Go's `&&` short-circuits left to right, so `grid[0]` (which panics on a grid
with zero rows) is only evaluated after the first three conjuncts hold. -/
def InBounds (grid : Grid T) (coord : Coordinate) : Except GoPanic Bool :=
  if coord.y > 0 then
    if coord.x > 0 then
      if coord.y < (List.length grid : Int) then
        match grid with
        | [] => .error .indexOutOfRange
        | row0 :: _ => .ok (decide (coord.x < (List.length row0 : Int)))
      else .ok false
    else .ok false
  else .ok false

/-- Embedding of
`type TreeNode[T any] struct { element T; firstChild *TreeNode[T]; nextSibling *TreeNode[T] }`,
with the two nilable pointers modelled by `Option`. -/
inductive TreeNode (T : Type) where
  | mk (element : T) (firstChild : Option (TreeNode T))
      (nextSibling : Option (TreeNode T))
  deriving Repr

/-- Field accessor for `element`. -/
def TreeNode.element : TreeNode T → T
  | .mk e _ _ => e

/-- Field accessor for `firstChild`. -/
def TreeNode.firstChild : TreeNode T → Option (TreeNode T)
  | .mk _ fc _ => fc

/-- Field accessor for `nextSibling`. -/
def TreeNode.nextSibling : TreeNode T → Option (TreeNode T)
  | .mk _ _ ns => ns

/-- Embedding of `func (t TreeNode[T]) GetNodes() []TreeNode[T]`: the list
starts with `t`, then, when `t.nextSibling != nil`, all nodes of the
next-sibling subtree, then, when `t.firstChild != nil`, all nodes of the
first-child subtree. -/
def TreeNode.GetNodes : TreeNode T → List (TreeNode T)
  | .mk e fc ns =>
      .mk e fc ns ::
        ((match ns with
          | some sib => sib.GetNodes
          | none => []) ++
         (match fc with
          | some child => child.GetNodes
          | none => []))

/-- Concrete 3-rows-by-4-columns grid used by the spec's grid example. -/
def grid3x4 : Grid Nat :=
  [[7, 7, 7, 7], [7, 7, 7, 7], [7, 7, 7, 7]]

/-- Concrete tree node C of the spec's tree example: a leaf. -/
def nodeC : TreeNode Nat := .mk 3 none none

/-- Concrete tree node B of the spec's tree example: a leaf. -/
def nodeB : TreeNode Nat := .mk 2 none none

/-- Concrete tree node A of the spec's tree example: first child C, next
sibling B. -/
def nodeA : TreeNode Nat := .mk 1 (some nodeC) (some nodeB)

/-- Concrete root R of the spec's tree example: first child A, no sibling. -/
def nodeR : TreeNode Nat := .mk 0 (some nodeA) none

/-- Lemma: the effect of `copy(l[dst:], l[src:])` when copying forward
(`dst ≤ src`): positions `dst ..` receive the old suffix from `src`, and the
tail from `dst + (len - src)` on is untouched. -/
theorem goCopyWithin_forward (l : List T) (dst src : Nat) (h1 : dst ≤ src)
    (h2 : src ≤ l.length) :
    goCopyWithin l dst src =
      l.take dst ++ l.drop src ++ l.drop (dst + (l.length - src)) := by
  unfold goCopyWithin
  rw [show min (l.length - dst) (l.length - src) = l.length - src by omega]
  rw [List.take_of_length_le (show (l.drop src).length ≤ l.length - src by simp)]

/-- Lemma: the effect of `copy(l[dst:], l[src:])` when copying backward
(`src ≤ dst`): the copied block is truncated to the `len - dst` positions
available at `dst`. -/
theorem goCopyWithin_backward (l : List T) (dst src : Nat) (h1 : src ≤ dst)
    (h2 : dst ≤ l.length) :
    goCopyWithin l dst src =
      l.take dst ++ (l.drop src).take (l.length - dst)
        ++ l.drop (dst + (l.length - dst)) := by
  unfold goCopyWithin
  rw [show min (l.length - dst) (l.length - src) = l.length - dst by omega]

/-- Lemma: taking a prefix of an append at exactly the first part's length
yields the first part. -/
theorem take_append_of_length_eq {A B : List T} {k : Nat} (h : A.length = k) :
    (A ++ B).take k = A := by
  subst h; exact List.take_left A B

/-- Lemma: dropping a prefix of an append at exactly the first part's length
yields the second part. -/
theorem drop_append_of_length_eq {A B : List T} {k : Nat} (h : A.length = k) :
    (A ++ B).drop k = B := by
  subst h; exact List.drop_left A B

/-- Lemma: the zeroing loop only writes at positions `k` and beyond, so the
first `k` elements are unchanged. -/
theorem goZeroFrom_take [Inhabited T] (l : List T) (k : Nat) :
    (goZeroFrom l k).take k = l.take k := by
  unfold goZeroFrom
  rw [List.take_append_eq_append_take, List.take_take]
  rw [show k ⊓ k = k by omega]
  rcases Nat.le_total k l.length with h | h
  · rw [show k - (List.take k l).length = 0 by simp [List.length_take]; omega]
    simp
  · rw [show l.length - k = 0 by omega]
    simp

/-- Lemma: on valid indices `0 ≤ start ≤ end ≤ len`, `Cut` returns the
prefix before `start` followed by the suffix from `end`. -/
theorem Cut_ret_of_valid [Inhabited T] (l : List T) (s e : Int)
    (h0 : 0 ≤ s) (h1 : s ≤ e) (h2 : e ≤ (l.length : Int)) :
    (Cut l s e).ret = .ok (l.take s.toNat ++ l.drop e.toNat) := by
  simp only [Cut]
  rw [if_pos ⟨h0, by omega⟩, if_pos ⟨by omega, h2⟩, if_pos h1]
  have hA : (l.take s.toNat ++ l.drop e.toNat).length
      = (l.length - e.toNat) + s.toNat := by
    simp only [List.length_append, List.length_take, List.length_drop]
    omega
  rw [goZeroFrom_take]
  rw [goCopyWithin_forward l s.toNat e.toNat (by omega) (by omega)]
  rw [List.take_append_eq_append_take]
  rw [List.take_of_length_le (le_of_eq hA), hA]
  simp

/-- Lemma: on a valid index `0 ≤ index < len`, `Delete` returns the list
without the element at `index`, order preserved. -/
theorem Delete_ret_of_valid [Inhabited T] (l : List T) (i : Int)
    (h0 : 0 ≤ i) (h1 : i < (l.length : Int)) :
    (Delete l i).ret = .ok (l.take i.toNat ++ l.drop (i.toNat + 1)) := by
  simp only [Delete]
  rw [if_pos ⟨h0, by omega⟩, if_pos (by omega)]
  rw [goCopyWithin_forward l i.toNat (i.toNat + 1) (by omega) (by omega)]
  rw [show i.toNat + (l.length - (i.toNat + 1)) = l.length - 1 by omega]
  have hAB : (l.take i.toNat ++ l.drop (i.toNat + 1)).length = l.length - 1 := by
    simp only [List.length_append, List.length_take, List.length_drop]
    omega
  unfold goSet
  rw [take_append_of_length_eq hAB]
  rw [show l.length - 1 + 1 = l.length by omega]
  have hfull : ((l.take i.toNat ++ l.drop (i.toNat + 1))
      ++ l.drop (l.length - 1)).length ≤ l.length := by
    simp only [List.length_append, List.length_take, List.length_drop]
    omega
  rw [List.drop_eq_nil_of_le hfull]
  rw [take_append_of_length_eq hAB]

/-- Lemma: on a valid index `0 ≤ index ≤ len`, `Insert` returns the list
with `v` placed at position `index`. -/
theorem Insert_ret_of_valid [Inhabited T] (l : List T) (v : T) (i : Int)
    (h0 : 0 ≤ i) (h1 : i ≤ (l.length : Int)) :
    (Insert l v i).ret = .ok (l.take i.toNat ++ v :: l.drop i.toNat) := by
  have hi : i.toNat ≤ l.length := by omega
  simp only [Insert]
  have hc1 : 0 ≤ i + 1 ∧ i + 1 ≤ (((l ++ [default]).length : Nat) : Int) := by
    simp only [List.length_append, List.length_cons, List.length_nil]
    omega
  have hc2 : 0 ≤ i ∧ i ≤ (((l ++ [default]).length : Nat) : Int) := by
    simp only [List.length_append, List.length_cons, List.length_nil]
    omega
  rw [if_pos hc1, if_pos hc2]
  have hAlen : (l ++ [default]).length = l.length + 1 := by simp
  rw [goCopyWithin_backward (l ++ [default]) (i.toNat + 1) i.toNat (by omega)
    (by simp; omega)]
  rw [hAlen]
  rw [show i.toNat + 1 + (l.length + 1 - (i.toNat + 1)) = l.length + 1 by omega]
  rw [@List.drop_eq_nil_of_le T (l ++ [default]) (l.length + 1) (by simp),
    List.append_nil]
  rw [show l.length + 1 - (i.toNat + 1) = l.length - i.toNat by omega]
  have hdropA : (l ++ [default]).drop i.toNat = l.drop i.toNat ++ [default] := by
    rw [List.drop_append_eq_append_drop, show i.toNat - l.length = 0 by omega,
      List.drop_zero]
  rw [hdropA]
  rw [List.take_append_eq_append_take]
  rw [List.take_append_eq_append_take]
  have hmid1 : (l.drop i.toNat).length ≤ l.length - i.toNat := by simp
  have hmid2 : l.length - i.toNat - (l.drop i.toNat).length = 0 := by
    simp [List.length_drop]
  rw [List.take_of_length_le hmid1, hmid2, List.take_zero, List.append_nil]
  have hPlen : (List.take (i.toNat + 1) l
      ++ List.take (i.toNat + 1 - l.length) [default]).length = i.toNat + 1 := by
    simp only [List.length_append, List.length_take, List.length_singleton]
    omega
  unfold goSet
  have hz1 : i.toNat - (i.toNat + 1) = 0 := by omega
  rw [List.take_append_eq_append_take, hPlen, hz1, List.take_zero,
    List.append_nil]
  rw [drop_append_of_length_eq hPlen]
  have hz2 : i.toNat ⊓ (i.toNat + 1) = i.toNat := by omega
  rw [List.take_append_eq_append_take, List.take_take, hz2]
  have hz3 : i.toNat - (List.take (i.toNat + 1) l).length = 0 := by
    simp only [List.length_take]
    omega
  rw [hz3, List.take_zero, List.append_nil]

/-- Lemma: `Delete` on an out-of-range index panics before any write, so the
argument slice is unchanged. -/
theorem Delete_invalid {T : Type} [Inhabited T] (l : List T) (i : Int)
    (h : i < 0 ∨ (l.length : Int) ≤ i) :
    (Delete l i).ret = .error .indexOutOfRange ∧ (Delete l i).arg = l := by
  simp only [Delete]
  split
  next h1 =>
    split
    next h2 => exfalso; rcases h with h | h <;> omega
    next => exact ⟨rfl, rfl⟩
  next => exact ⟨rfl, rfl⟩

/-- Lemma: `Insert` never writes into the caller's slice, because `append`
reallocates under the exact-capacity convention. -/
theorem Insert_arg_unchanged {T : Type} [Inhabited T] (l : List T) (v : T)
    (i : Int) : (Insert l v i).arg = l := by
  simp only [Insert]
  split
  next =>
    split
    next => rfl
    next => rfl
  next => rfl

/-- Lemma: `Cut` with a negative or beyond-length index panics at one of the
two slice expressions, before `copy` runs, so the argument is unchanged. -/
theorem Cut_oob_invalid {T : Type} [Inhabited T] (l : List T) (s e : Int)
    (h : s < 0 ∨ (l.length : Int) < s ∨ e < 0 ∨ (l.length : Int) < e) :
    (Cut l s e).ret = .error .indexOutOfRange ∧ (Cut l s e).arg = l := by
  simp only [Cut]
  split
  next h1 =>
    split
    next h2 => exfalso; rcases h with h | h | h | h <;> omega
    next => exact ⟨rfl, rfl⟩
  next => exact ⟨rfl, rfl⟩

/-- Claim C1 (code_bug evaluation).  The claim says every Stack operation
mutates the caller-visible stack (Push/Unshift grow it by one, Pop/Shift on
a non-empty stack shrink it by one).  The source's methods take the receiver
by value, so the caller-visible stack is unchanged by all four operations:
after `Push 5` on an empty stack the caller still sees length 0 (the claim
says 1), and after `Pop`/`Shift` on `[1, 2]` the caller still sees length 2
(the claim says 1). -/
theorem C1_stack_ops_leave_caller_unchanged :
    (Stack.Push ([] : Stack Nat) 5).caller.length = 0 ∧
    (Stack.Unshift ([] : Stack Nat) 5).caller.length = 0 ∧
    (Stack.Pop ([1, 2] : Stack Nat)).caller.length = 2 ∧
    (Stack.Shift ([1, 2] : Stack Nat)).caller.length = 2 ∧
    (Stack.Pop ([1, 2] : Stack Nat)).ret = .ok 2 ∧
    (Stack.Shift ([1, 2] : Stack Nat)).ret = .ok 1 :=
  ⟨rfl, rfl, rfl, rfl, rfl, rfl⟩

/-- Claim C2 (confirmed).  For every tree node `n`, `GetNodes n` is the
sequence consisting of `n` itself, followed by the full enumeration of `n`'s
next-sibling subtree when that link is present, followed by the full
enumeration of `n`'s first-child subtree when that link is present. -/
theorem C2_getNodes_sibling_before_child {T : Type} (t : TreeNode T) :
    t.GetNodes = t :: (Option.elim t.nextSibling [] TreeNode.GetNodes
      ++ Option.elim t.firstChild [] TreeNode.GetNodes) := by
  cases t with
  | mk e fc ns => cases fc <;> cases ns <;> rfl

/-- Claim C3 (code_bug evaluation).  The claim says `InBounds` is true iff
`0 ≤ y < rowCount` and `0 ≤ x < columnCount`, hence true at `(0,0)` and
`(0,2)` on a 3-by-4 grid.  The source tests `coord.y > 0 && coord.x > 0`, so
it returns `false` at `(0,0)` and `(0,2)` (the claim says true); the other
example coordinates agree with the claim. -/
theorem C3_inBounds_rejects_zero_edge :
    InBounds grid3x4 ⟨0, 0⟩ = .ok false ∧
    InBounds grid3x4 ⟨0, 2⟩ = .ok false ∧
    InBounds grid3x4 ⟨3, 2⟩ = .ok true ∧
    InBounds grid3x4 ⟨4, 0⟩ = .ok false ∧
    InBounds grid3x4 ⟨0, 3⟩ = .ok false ∧
    InBounds grid3x4 ⟨-1, 0⟩ = .ok false :=
  ⟨rfl, rfl, rfl, rfl, rfl, rfl⟩

/-- Claim C4 (confirmed).  For every sequence `s` and indices
`0 ≤ start ≤ end ≤ len(s)`, `Cut s start end` returns exactly the elements
outside the half-open range `[start, end)` in their original relative order
(the prefix before `start` followed by the suffix from `end`), a sequence of
length `len(s) - (end - start)`. -/
theorem C4_cut_keeps_outside_range {T : Type} [Inhabited T] (l : List T)
    (s e : Int) (h0 : 0 ≤ s) (h1 : s ≤ e) (h2 : e ≤ (l.length : Int)) :
    (Cut l s e).ret = .ok (l.take s.toNat ++ l.drop e.toNat) ∧
    ((l.take s.toNat ++ l.drop e.toNat).length : Int)
      = (l.length : Int) - (e - s) := by
  refine ⟨Cut_ret_of_valid l s e h0 h1 h2, ?_⟩
  simp only [List.length_append, List.length_take, List.length_drop]
  omega

/-- Witness for C4 at the spec's example: `Cut [1,2,3,4,5] 1 3 = [1,4,5]`. -/
theorem C4_witness :
    (Cut ([1, 2, 3, 4, 5] : List Nat) 1 3).ret = .ok [1, 4, 5] := by
  have h := (C4_cut_keeps_outside_range ([1, 2, 3, 4, 5] : List Nat) 1 3
    (by decide) (by decide) (by decide)).1
  rw [h]
  rfl

/-- Claim C5 (confirmed).  For every sequence `s`, element `e` and index
`0 ≤ index ≤ len(s)`, `Delete (Insert s e index) index` returns `s`:
insertion followed by deletion at the same index is the identity. -/
theorem C5_delete_insert_inverse {T : Type} [Inhabited T] (l : List T)
    (v : T) (i : Int) (h0 : 0 ≤ i) (h1 : i ≤ (l.length : Int)) :
    ((Insert l v i).ret >>= fun t => (Delete t i).ret) = .ok l := by
  rw [Insert_ret_of_valid l v i h0 h1]
  show (Delete (l.take i.toNat ++ v :: l.drop i.toNat) i).ret = .ok l
  have hlen : i < ((l.take i.toNat ++ v :: l.drop i.toNat).length : Int) := by
    simp only [List.length_append, List.length_take, List.length_cons,
      List.length_drop]
    omega
  rw [Delete_ret_of_valid _ i h0 hlen]
  have hA : (l.take i.toNat).length = i.toNat := by
    simp only [List.length_take]
    omega
  rw [take_append_of_length_eq hA]
  have hAv : (l.take i.toNat ++ [v]).length = i.toNat + 1 := by
    simp only [List.length_append, List.length_singleton]
    omega
  rw [List.append_cons, drop_append_of_length_eq hAv]
  rw [List.take_append_drop]

/-- Witness for C5 at the spec's example: inserting 9 at index 1 of
`[1,2,3]` and deleting index 1 again returns `[1,2,3]`. -/
theorem C5_witness :
    ((Insert ([1, 2, 3] : List Nat) 9 1).ret >>= fun t => (Delete t 1).ret)
      = .ok [1, 2, 3] :=
  C5_delete_insert_inverse [1, 2, 3] 9 1 (by decide) (by decide)

/-- Counterexample to claim C6 as stated: on the tree R (first child A, A
with first child C and next sibling B), `GetNodes R` is not
`[R, A, C, B]` — the sibling-before-child order visits B before C. -/
theorem C6_counterexample :
    TreeNode.GetNodes nodeR ≠ [nodeR, nodeA, nodeC, nodeB] := by
  intro h
  have h2 := congrArg (List.map TreeNode.element) h
  simp [nodeR, nodeA, nodeB, nodeC, TreeNode.GetNodes, TreeNode.element] at h2

/-- Claim C6 (corrected).  On the tree with root R where R.firstChild = A,
A.nextSibling = B and A.firstChild = C, `GetNodes R` yields exactly
`[R, A, B, C]`: A's next-sibling subtree (B) is enumerated before A's
first-child subtree (C). -/
theorem C6_enumerate_concrete_tree :
    TreeNode.GetNodes nodeR = [nodeR, nodeA, nodeB, nodeC] := rfl

/-- Counterexample to claim C7 as stated: `Pop` and `Shift` on the empty
stack do fail, but with the runtime index-out-of-range panic, not with an
`EmptyCollection` error value. -/
theorem C7_counterexample :
    (Stack.Pop ([] : Stack Nat)).ret = .error .indexOutOfRange ∧
    (Stack.Shift ([] : Stack Nat)).ret = .error .indexOutOfRange ∧
    (Stack.Pop ([] : Stack Nat)).ret ≠ .error .emptyCollection ∧
    (Stack.Shift ([] : Stack Nat)).ret ≠ .error .emptyCollection := by
  refine ⟨rfl, rfl, fun h => ?_, fun h => ?_⟩ <;>
    simp [Stack.Pop, Stack.Shift] at h

/-- Claim C7 (corrected).  For every stack with zero elements, `Pop` and
`Shift` fail — with the runtime index-out-of-range panic rather than a
distinguished EmptyCollection error — and never silently return a
default/zero value. -/
theorem C7_empty_pop_shift_panic (T : Type) :
    (Stack.Pop ([] : Stack T)).ret = .error .indexOutOfRange ∧
    (Stack.Shift ([] : Stack T)).ret = .error .indexOutOfRange :=
  ⟨rfl, rfl⟩

/-- Claim C8 (confirmed).  For every sequence `s` and indices `start`,
`end`, `Cut` fails with the index-out-of-range panic whenever `start > end`,
or `end > len(s)`, or either index is negative. -/
theorem C8_cut_invalid_index_panics {T : Type} [Inhabited T] (l : List T)
    (s e : Int)
    (h : s > e ∨ e > (l.length : Int) ∨ s < 0 ∨ e < 0) :
    (Cut l s e).ret = .error .indexOutOfRange := by
  simp only [Cut]
  split
  next h1 =>
    split
    next h2 =>
      split
      next h3 => exfalso; rcases h with h | h | h | h <;> omega
      next => rfl
    next => rfl
  next => rfl

/-- Witness for C8: `Cut [1,2,3] 2 1` (start > end) panics. -/
theorem C8_witness :
    (Cut ([1, 2, 3] : List Nat) 2 1).ret = .error .indexOutOfRange :=
  C8_cut_invalid_index_panics [1, 2, 3] 2 1 (Or.inl (by decide))

/-- Counterexample to claim C9 as stated: `Cut [1,2,3,4,5] 3 1` (in-range
indices with start > end) fails, but only after `copy` has already written
into the input: the caller's slice has become `[1, 2, 3, 2, 3]`. -/
theorem C9_counterexample :
    (Cut ([1, 2, 3, 4, 5] : List Nat) 3 1).ret = .error .indexOutOfRange ∧
    (Cut ([1, 2, 3, 4, 5] : List Nat) 3 1).arg = [1, 2, 3, 2, 3] ∧
    (Cut ([1, 2, 3, 4, 5] : List Nat) 3 1).arg ≠ [1, 2, 3, 4, 5] :=
  ⟨rfl, rfl, by decide⟩

/-- Claim C9 (corrected).  Every invalid-argument `Delete` call and every
`Cut` call whose start or end is negative or exceeds the length fail
immediately with the input's elements unchanged, and `Insert` never changes
its input; the exception is `Cut` with in-range `start > end`, which writes
into the input before failing (see the counterexample). -/
theorem C9_failure_mutation_boundary {T : Type} [Inhabited T] (l : List T)
    (v : T) (i s e : Int) :
    ((i < 0 ∨ (l.length : Int) ≤ i) →
      (Delete l i).ret = .error .indexOutOfRange ∧ (Delete l i).arg = l) ∧
    (Insert l v i).arg = l ∧
    ((s < 0 ∨ (l.length : Int) < s ∨ e < 0 ∨ (l.length : Int) < e) →
      (Cut l s e).ret = .error .indexOutOfRange ∧ (Cut l s e).arg = l) :=
  ⟨fun h => Delete_invalid l i h, Insert_arg_unchanged l v i,
    fun h => Cut_oob_invalid l s e h⟩

/-- Witness for C9 (amended): concrete invalid calls that leave the input
unchanged. -/
theorem C9_witness :
    ((Delete ([1, 2] : List Nat) (-1)).ret = .error .indexOutOfRange ∧
      (Delete ([1, 2] : List Nat) (-1)).arg = [1, 2]) ∧
    (Insert ([1, 2] : List Nat) 7 (-1)).arg = [1, 2] ∧
    ((Cut ([1, 2] : List Nat) 0 3).ret = .error .indexOutOfRange ∧
      (Cut ([1, 2] : List Nat) 0 3).arg = [1, 2]) := by
  have h := C9_failure_mutation_boundary ([1, 2] : List Nat) 7 (-1) 0 3
  exact ⟨h.1 (Or.inl (by decide)), h.2.1,
    h.2.2 (Or.inr (Or.inr (Or.inr (by decide))))⟩

/-- Claim C10 (confirmed).  For every coordinate, `InBounds` on a grid with
zero rows returns `false` and does not fail: the short-circuiting `&&` means
`grid[0]` is only read after `coord.y < len(grid)` has held together with
`coord.y > 0`, which is impossible on an empty grid. -/
theorem C10_inBounds_empty_grid_total (T : Type) (c : Coordinate) :
    InBounds ([] : Grid T) c = .ok false := by
  unfold InBounds
  split
  next hy =>
    split
    next hx =>
      split
      next hlt =>
        exfalso
        simp only [List.length_nil, Nat.cast_zero] at hlt
        omega
      next => rfl
    next => rfl
  next => rfl

end Aocutils
